import Mathlib

/-!
Verification of the URL restriction engine of the focusspace repository
(`extension-google/src/lib/url-blocker.ts` and
`extension-firefox/src/lib/url-blocker.ts`).

JavaScript strings are modelled as `List Char`.  The WHATWG `new URL`
constructor used by the TypeScript code is modelled by `newURL` below,
restricted to the behaviours the blocker relies on (scheme splitting,
authority/host/port extraction, path/query splitting, failure on
scheme-less or malformed input).  The exported functions of
`url-blocker.ts` are then translated one by one, keeping their names.
The two browser variants share every definition except `isInternalUrl`
(their exempt protocol lists differ), so the shared parts are defined
once and the variant-specific parts live in namespaces `Google` and
`Firefox`.
-/

/-- JavaScript string, modelled as a list of characters. -/
abbrev JStr := List Char

/-- Coercion from Lean string literals to the model's strings. -/
def str (s : String) : JStr := s.data

/-- ASCII lower-casing of one character, as `String.prototype.toLowerCase`
acts on the ASCII range (all inputs relevant to the claims are ASCII). -/
def asciiLower (c : Char) : Char :=
  if 'A' ≤ c && c ≤ 'Z' then Char.ofNat (c.toNat + 32) else c

/-- Model of `s.toLowerCase()`. -/
def toLower (s : JStr) : JStr := s.map asciiLower

/-- Model of `s.endsWith(suffix)`. -/
def endsWith (s suffix : JStr) : Bool := List.isSuffixOf suffix s

/-- Model of `s.includes(pat)`: substring containment. -/
def includes : JStr → JStr → Bool
  | [], pat => List.isPrefixOf pat []
  | c :: rest, pat => List.isPrefixOf pat (c :: rest) || includes rest pat

/-- Model of `s.split(sep)` for a one-character separator. -/
def splitOnChar (sep : Char) : JStr → List JStr
  | [] => [[]]
  | c :: rest =>
    match splitOnChar sep rest with
    | [] => [[]]
    | p :: ps => if c == sep then [] :: p :: ps else (c :: p) :: ps

/-- Model of `parts[1] || ""` on the result of a split: the element at
index 1 when it exists, the empty string otherwise. -/
def indexOneOrEmpty (parts : List JStr) : JStr :=
  match parts with
  | _ :: x :: _ => x
  | _ => []

/-- Model of `s.replace(/\/$/, "")`: strip one trailing slash. -/
def stripTrailingSlash (s : JStr) : JStr :=
  if s.getLast? = some '/' then s.dropLast else s

/-- Model of `s.replace(/^www\./, "")`: strip one leading `www.`. -/
def stripLeadingWww (s : JStr) : JStr :=
  if List.isPrefixOf (str "www.") s then s.drop 4 else s

/-- Model of `proto.replace(":", "")`: remove the first occurrence of a
character. -/
def removeFirstChar (c : Char) : JStr → JStr
  | [] => []
  | x :: rest => if x == c then rest else x :: removeFirstChar c rest

/-! The WHATWG URL parser model. -/

/-- Parsed URL record: the components of a `URL` object the blocker
reads (`protocol` keeps its trailing colon, `search` its leading `?`). -/
structure URLRec where
  protocol : JStr
  hostname : JStr
  pathname : JStr
  search : JStr
deriving DecidableEq, Repr

/-- Schemes the WHATWG standard treats as special. -/
def specialSchemes : List JStr :=
  [ str "http", str "https", str "ws", str "wss", str "ftp", str "file" ]

/-- Characters allowed in a scheme after its leading letter. -/
def isSchemeChar (c : Char) : Bool :=
  c.isAlpha || c.isDigit || c == '+' || c == '-' || c == '.'

/-- Split a candidate URL into its (lower-cased) scheme and the text
after the colon; fails when the string does not start with
`letter schemechar* ":"`, as `new URL` does. -/
def splitScheme (s : JStr) : Option (JStr × JStr) :=
  match s with
  | [] => none
  | c :: _ =>
    if c.isAlpha then
      let scheme := s.takeWhile isSchemeChar
      match s.drop scheme.length with
      | ':' :: rest => some (toLower scheme, rest)
      | _ => none
    else none

/-- Forbidden host code points (the subset relevant here); a host
containing one makes `new URL` throw. -/
def forbiddenHostChars : List Char :=
  [' ', '#', '/', ':', '<', '>', '?', '@', '[', '\\', ']', '^', '|']

/-- Host validity check used by the parser model. -/
def validHostChars (host : JStr) : Bool :=
  host.all (fun c => !(forbiddenHostChars.contains c))

/-- Last element of a non-empty list of strings (empty string default). -/
def lastPart : List JStr → JStr
  | [] => []
  | [x] => x
  | _ :: y :: rest => lastPart (y :: rest)

/-- Split an authority into hostname and port: userinfo before `@` is
dropped, the port after `:` must be all digits or parsing fails. -/
def parseHostPort (authority : JStr) : Option (JStr × JStr) :=
  let hostport := lastPart (splitOnChar '@' authority)
  if hostport.contains ':' then
    let host := hostport.takeWhile (fun c => c != ':')
    let port := (hostport.drop host.length).drop 1
    if port.all Char.isDigit then some (host, port) else none
  else some (hostport, [])

/-- Split the text after the authority into pathname and search; for
special schemes an empty path becomes `/` and backslashes act as
slashes; a search consisting of a bare `?` is the empty search, else
the search keeps its leading `?`. -/
def splitPathSearch (special : Bool) (s : JStr) : JStr × JStr :=
  let rawPath := s.takeWhile (fun c => c != '?')
  let rawSearch := s.drop rawPath.length
  let path :=
    if special then
      (if rawPath.isEmpty then str "/"
       else rawPath.map (fun c => if c == '\\' then '/' else c))
    else rawPath
  let search := if rawSearch == str "?" then [] else rawSearch
  (path, search)

/-- Model of the WHATWG `new URL(url)` constructor (no base URL), as the
blocker uses it: returns the record of components on success and `none`
where the real constructor throws.  Fragments are stripped; special
schemes require a non-empty valid host (except `file:`); non-special
schemes take an authority only after `//`, otherwise the remainder is
an opaque path. -/
def newURL (url : JStr) : Option URLRec :=
  match splitScheme url with
  | none => none
  | some (scheme, afterScheme) =>
    let rest := afterScheme.takeWhile (fun c => c != '#')
    let special := specialSchemes.contains scheme
    if special && scheme != str "file" then
      let r := rest.dropWhile (fun c => c == '/' || c == '\\')
      let authority := r.takeWhile (fun c => c != '/' && c != '?' && c != '\\')
      let afterAuthority := r.drop authority.length
      match parseHostPort authority with
      | none => none
      | some (host, _port) =>
        if host.isEmpty || !(validHostChars host) then none
        else
          let ps := splitPathSearch true afterAuthority
          some { protocol := scheme ++ [':'], hostname := host,
                 pathname := ps.1, search := ps.2 }
    else if scheme == str "file" then
      if List.isPrefixOf (str "//") rest then
        let r := rest.drop 2
        let authority := r.takeWhile (fun c => c != '/' && c != '?' && c != '\\')
        let afterAuthority := r.drop authority.length
        match parseHostPort authority with
        | none => none
        | some (host, _port) =>
          if !(validHostChars host) then none
          else
            let ps := splitPathSearch true afterAuthority
            some { protocol := scheme ++ [':'], hostname := host,
                   pathname := ps.1, search := ps.2 }
      else
        let ps := splitPathSearch true rest
        some { protocol := scheme ++ [':'], hostname := [],
               pathname := ps.1, search := ps.2 }
    else
      if List.isPrefixOf (str "//") rest then
        let r := rest.drop 2
        let authority := r.takeWhile (fun c => c != '/' && c != '?')
        let afterAuthority := r.drop authority.length
        match parseHostPort authority with
        | none => none
        | some (host, _port) =>
          if !(validHostChars host) then none
          else
            let ps := splitPathSearch false afterAuthority
            some { protocol := scheme ++ [':'], hostname := host,
                   pathname := ps.1, search := ps.2 }
      else
        let ps := splitPathSearch false rest
        some { protocol := scheme ++ [':'], hostname := [],
               pathname := ps.1, search := ps.2 }

/-! Definitions translated from `url-blocker.ts` (identical in the
Google and Firefox variants unless noted). -/

/-- Session mode, the TypeScript union `"allowlist" | "blocklist"`. -/
inductive SessionMode where
  | allowlist
  | blocklist
deriving DecidableEq, Repr

/-- Session status, the union `"active" | "completed" | "stopped"`. -/
inductive SessionStatus where
  | active
  | completed
  | stopped
deriving DecidableEq, Repr

/-- The fields of `FocusSession` the blocker consults (`id`, `userId`,
`durationMinutes`, `startedAt`, `endedAt`, `tabSwitchAttempts` are never
read by `shouldBlockUrl` and are omitted). -/
structure FocusSession where
  mode : SessionMode
  urls : List JStr
  status : SessionStatus
deriving DecidableEq, Repr

/-- Initial value of the module variable `cachedAllowedDomains`, the
hardcoded default always-allowed application-domain list. -/
def cachedAllowedDomains : List JStr :=
  [ str "localhost", str "127.0.0.1", str "vercel.app", str "anshul.space" ]

/-- Translation of `extractHostname`. -/
def extractHostname (url : JStr) : Option JStr :=
  match newURL url with
  | some parsed => some (toLower parsed.hostname)
  | none => none

/-- Result record of `parseUrlForMatching`: `pathname` is the parsed
pathname concatenated with the search, `fullUrl` is the (possibly
scheme-prepended) input lower-cased. -/
structure ParsedForMatching where
  hostname : JStr
  pathname : JStr
  fullUrl : JStr
deriving DecidableEq, Repr

/-- Translation of `parseUrlForMatching`: prepend `https://` when the
input has no `://`, then parse. -/
def parseUrlForMatching (url : JStr) : Option ParsedForMatching :=
  let urlToParse := if includes url (str "://") then url else str "https://" ++ url
  match newURL urlToParse with
  | some parsed =>
    some { hostname := toLower parsed.hostname,
           pathname := parsed.pathname ++ parsed.search,
           fullUrl := toLower urlToParse }
  | none => none

/-- Translation of `hasSpecificPath`. -/
def hasSpecificPath (url : JStr) : Bool :=
  match parseUrlForMatching url with
  | none => false
  | some parsed =>
    let pathname := stripTrailingSlash parsed.pathname
    pathname.length > 0 || includes parsed.fullUrl (str "?")

/-- Translation of `normalizeHostname`. -/
def normalizeHostname (hostname : JStr) : JStr :=
  toLower (stripLeadingWww hostname)

/-- The inline `hostnameMatches` condition of `urlMatchesAny`: equal
normalized hostnames, or either hostname is a subdomain of the other. -/
def hostnameMatches (targetHostnameNorm listHostnameNorm : JStr) : Bool :=
  targetHostnameNorm == listHostnameNorm
    || endsWith targetHostnameNorm ('.' :: listHostnameNorm)
    || endsWith listHostnameNorm ('.' :: targetHostnameNorm)

/-- The `targetPath`/`listPath` construction inside `urlMatchesAny`:
the parsed pathname (which already carries the search) concatenated with
`fullUrl.split("?")[1] || ""`, one trailing slash stripped. -/
def matchPath (parsed : ParsedForMatching) : JStr :=
  stripTrailingSlash
    (parsed.pathname ++
      (if includes parsed.fullUrl (str "?")
       then indexOneOrEmpty (splitOnChar '?' parsed.fullUrl)
       else []))

/-- Translation of `urlMatchesAny`. -/
def urlMatchesAny (url : JStr) (urlList : List JStr) : Bool :=
  match parseUrlForMatching url with
  | none => false
  | some targetParsed =>
    let targetHostnameNorm := normalizeHostname targetParsed.hostname
    urlList.any fun listUrl =>
      match parseUrlForMatching listUrl with
      | none => false
      | some listParsed =>
        let listHostnameNorm := normalizeHostname listParsed.hostname
        if !(hostnameMatches targetHostnameNorm listHostnameNorm) then false
        else if hasSpecificPath listUrl then
          let targetPath := matchPath targetParsed
          let listPath := matchPath listParsed
          targetPath == listPath || List.isPrefixOf listPath targetPath
        else true

/-- Translation of `isFlowApp`; the cached always-allowed domain list is
passed explicitly (the TypeScript reads it via `getAllowedDomains()`). -/
def isFlowApp (allowedDomains : List JStr) (url : JStr) : Bool :=
  match extractHostname url with
  | none => false
  | some hostname =>
    allowedDomains.any fun domain =>
      hostname == domain || endsWith hostname ('.' :: domain)

namespace Google

/-- The `internalProtocols` list of the Google (Chrome) extension. -/
def internalProtocols : List JStr :=
  [ str "chrome:", str "chrome-extension:", str "about:", str "edge:",
    str "brave:", str "opera:", str "vivaldi:", str "moz-extension:",
    str "file:" ]

/-- Translation of the Chrome extension's `isInternalUrl`: the parsed
protocol must start with one of the listed protocols (colon removed);
an unparseable URL counts as internal. -/
def isInternalUrl (url : JStr) : Bool :=
  match newURL url with
  | some parsed =>
    internalProtocols.any fun protocol =>
      List.isPrefixOf (removeFirstChar ':' protocol) parsed.protocol
  | none => true

/-- Translation of the Chrome extension's `shouldBlockUrl`. -/
def shouldBlockUrl (allowedDomains : List JStr) (url : JStr)
    (session : Option FocusSession) : Bool :=
  match session with
  | none => false
  | some s =>
    if s.status != SessionStatus.active then false
    else if isInternalUrl url then false
    else if isFlowApp allowedDomains url then false
    else if s.urls.length == 0 then s.mode == SessionMode.allowlist
    else
      let matchesListedUrl := urlMatchesAny url s.urls
      if s.mode == SessionMode.allowlist then !matchesListedUrl
      else matchesListedUrl

end Google

namespace Firefox

/-- The `internalProtocols` list of the Firefox extension. -/
def internalProtocols : List JStr :=
  [ str "chrome:", str "chrome-extension:", str "about:",
    str "moz-extension:", str "file:", str "resource:" ]

/-- Translation of the Firefox extension's `isInternalUrl`. -/
def isInternalUrl (url : JStr) : Bool :=
  match newURL url with
  | some parsed =>
    internalProtocols.any fun protocol =>
      List.isPrefixOf (removeFirstChar ':' protocol) parsed.protocol
  | none => true

/-- Translation of the Firefox extension's `shouldBlockUrl` (textually
identical to the Chrome one apart from `isInternalUrl`). -/
def shouldBlockUrl (allowedDomains : List JStr) (url : JStr)
    (session : Option FocusSession) : Bool :=
  match session with
  | none => false
  | some s =>
    if s.status != SessionStatus.active then false
    else if isInternalUrl url then false
    else if isFlowApp allowedDomains url then false
    else if s.urls.length == 0 then s.mode == SessionMode.allowlist
    else
      let matchesListedUrl := urlMatchesAny url s.urls
      if s.mode == SessionMode.allowlist then !matchesListedUrl
      else matchesListedUrl

end Firefox

/-! Sanity checks of the embedding on concrete inputs. -/

example : newURL (str "https://example.com/videos/123") =
    some { protocol := str "https:", hostname := str "example.com",
           pathname := str "/videos/123", search := [] } := by decide

example : newURL (str "https://localhost:3000/dashboard") =
    some { protocol := str "https:", hostname := str "localhost",
           pathname := str "/dashboard", search := [] } := by decide

example : newURL (str "about:blank") =
    some { protocol := str "about:", hostname := [],
           pathname := str "blank", search := [] } := by decide

example : newURL (str "chrome://settings") =
    some { protocol := str "chrome:", hostname := str "settings",
           pathname := [], search := [] } := by decide

example : newURL (str "not a url!!") = none := by decide

example : newURL (str "example.com/foo") = none := by decide

example : parseUrlForMatching (str "example.com/videos") =
    some { hostname := str "example.com", pathname := str "/videos",
           fullUrl := str "https://example.com/videos" } := by decide

example : newURL (str "https://h/p?a=b") =
    some { protocol := str "https:", hostname := str "h",
           pathname := str "/p", search := str "?a=b" } := by decide

example : urlMatchesAny (str "https://example.com/videos/123")
    [ str "example.com/videos" ] = true := by decide

example : urlMatchesAny (str "https://example.com/other")
    [ str "example.com/videos" ] = false := by decide

example : urlMatchesAny (str "https://example.com") [ str "sub.example.com" ] = true := by
  decide

example : urlMatchesAny (str "https://example.com") [ str "www.example.com" ] = true := by
  decide

example : Google.isInternalUrl (str "chrome://settings") = true := by decide

example : Google.isInternalUrl (str "resource://gre/modules") = false := by decide

example : Firefox.isInternalUrl (str "resource://gre/modules") = true := by decide

example : Google.shouldBlockUrl cachedAllowedDomains (str "https://youtube.com/watch?v=xyz")
    (some { mode := SessionMode.allowlist, urls := [ str "https://docs.google.com" ],
            status := SessionStatus.active }) = true := by decide

example : Google.shouldBlockUrl cachedAllowedDomains
    (str "https://docs.google.com/document/d/abc")
    (some { mode := SessionMode.allowlist, urls := [ str "https://docs.google.com" ],
            status := SessionStatus.active }) = false := by decide

/-! Helper lemmas. -/

theorem asciiLower_eq_qmark (c : Char) : asciiLower c = '?' ↔ c = '?' := by
  unfold asciiLower
  split
  · rename_i h
    simp only [Bool.and_eq_true, decide_eq_true_eq] at h
    have hA : ('A' : Char).toNat = 65 := by decide
    have hZ : ('Z' : Char).toNat = 90 := by decide
    have hq63 : ('?' : Char).toNat = 63 := by decide
    have h1 : ('A' : Char).toNat ≤ c.toNat := h.1
    have h2 : c.toNat ≤ ('Z' : Char).toNat := h.2
    constructor
    · intro hq
      exfalso
      have hv : (c.toNat + 32).isValidChar := by
        left
        omega
      have hofn : (Char.ofNat (c.toNat + 32)).toNat = c.toNat + 32 := by
        simp [Char.ofNat, hv]
        rfl
      rw [hq] at hofn
      omega
    · intro hq
      subst hq
      exfalso
      omega
  · simp

theorem includes_singleton_iff (s : JStr) (c : Char) :
    includes s [c] = true ↔ c ∈ s := by
  induction s with
  | nil => simp [includes, List.isPrefixOf]
  | cons h t ih =>
    have hstep : includes (h :: t) [c] = (List.isPrefixOf [c] (h :: t) || includes t [c]) := rfl
    have hpre : List.isPrefixOf [c] (h :: t) = (c == h) := by
      cases t <;> simp [List.isPrefixOf]
    rw [hstep, hpre, Bool.or_eq_true, beq_iff_eq, ih, List.mem_cons]

theorem mem_toLower_qmark (s : JStr) : '?' ∈ toLower s ↔ '?' ∈ s := by
  unfold toLower
  rw [List.mem_map]
  constructor
  · rintro ⟨a, ha, hla⟩
    rw [(asciiLower_eq_qmark a).1 hla] at ha
    exact ha
  · intro h
    exact ⟨'?', h, (asciiLower_eq_qmark '?').2 rfl⟩

theorem parseUrlForMatching_fullUrl (url : JStr) (p : ParsedForMatching)
    (hp : parseUrlForMatching url = some p) :
    p.fullUrl = toLower (if includes url (str "://") then url
                         else str "https://" ++ url) := by
  simp only [parseUrlForMatching] at hp
  cases hn : newURL (if includes url (str "://") then url
                     else str "https://" ++ url) with
  | none => rw [hn] at hp; exact absurd hp (by simp)
  | some rec =>
    rw [hn] at hp
    simp only [Option.some_inj] at hp
    rw [← hp]

theorem includes_qmark_fullUrl (url : JStr) (p : ParsedForMatching)
    (hp : parseUrlForMatching url = some p)
    (hq : includes url (str "?") = false) :
    includes p.fullUrl (str "?") = false := by
  have hfu := parseUrlForMatching_fullUrl url p hp
  have hqc : str "?" = ['?'] := rfl
  rw [hqc] at hq ⊢
  rw [← Bool.not_eq_true] at hq ⊢
  rw [includes_singleton_iff] at hq ⊢
  intro hmem
  rw [hfu, mem_toLower_qmark] at hmem
  apply hq
  by_cases hc : includes url (str "://") = true
  · rwa [if_pos hc] at hmem
  · rw [if_neg hc, List.mem_append] at hmem
    rcases hmem with hmem | hmem
    · exact absurd hmem (by decide)
    · exact hmem

theorem Google.shouldBlockUrl_of_internal_google (domains : List JStr) (url : JStr)
    (session : Option FocusSession) (h : Google.isInternalUrl url = true) :
    Google.shouldBlockUrl domains url session = false := by
  cases session with
  | none => rfl
  | some s =>
    simp only [Google.shouldBlockUrl, h]
    cases hb : (s.status != SessionStatus.active) <;> simp

theorem Firefox.shouldBlockUrl_of_internal_firefox (domains : List JStr) (url : JStr)
    (session : Option FocusSession) (h : Firefox.isInternalUrl url = true) :
    Firefox.shouldBlockUrl domains url session = false := by
  cases session with
  | none => rfl
  | some s =>
    simp only [Firefox.shouldBlockUrl, h]
    cases hb : (s.status != SessionStatus.active) <;> simp

theorem Google.shouldBlockUrl_of_flowApp (domains : List JStr) (url : JStr)
    (session : Option FocusSession) (h : isFlowApp domains url = true) :
    Google.shouldBlockUrl domains url session = false := by
  cases session with
  | none => rfl
  | some s =>
    simp only [Google.shouldBlockUrl, h]
    cases hb : (s.status != SessionStatus.active) <;>
      cases hi : Google.isInternalUrl url <;> simp

/-! Claim theorems. -/

/-- C2 counterexample: the claim asserts that every URL with one of the
ten listed schemes (including `resource:`) is never blocked, but the
Chrome extension's `internalProtocols` list omits `resource:`, so a
`resource:` URL is blocked by an active allowlist session with an empty
list. -/
theorem C2_counterexample :
    Google.shouldBlockUrl cachedAllowedDomains (str "resource://gre/modules")
      (some { mode := SessionMode.allowlist, urls := [],
              status := SessionStatus.active }) = true := by decide

/-- C2 (amended): each extension exempts exactly its own protocol
prefix list — Chrome exempts `chrome:`, `chrome-extension:`, `about:`,
`edge:`, `brave:`, `opera:`, `vivaldi:`, `moz-extension:`, `file:` and
Firefox exempts `chrome:`, `chrome-extension:`, `about:`,
`moz-extension:`, `file:`, `resource:`; any URL whose parsed protocol
prefix-matches the respective list is never blocked, for every session
and cached domain list, while `resource:` is not exempt in Chrome and
`edge:` is not exempt in Firefox. -/
theorem C2_internal_schemes_amended :
    (∀ domains url session, Google.isInternalUrl url = true →
        Google.shouldBlockUrl domains url session = false)
    ∧ (∀ domains url session, Firefox.isInternalUrl url = true →
        Firefox.shouldBlockUrl domains url session = false)
    ∧ ([ str "chrome://settings", str "chrome-extension://abc/page.html",
         str "about:blank", str "edge://settings", str "brave://settings",
         str "opera://settings", str "vivaldi://settings",
         str "moz-extension://abc/page.html", str "file:///etc/hosts"
       ].all Google.isInternalUrl) = true
    ∧ ([ str "chrome://settings", str "chrome-extension://abc/page.html",
         str "about:blank", str "moz-extension://abc/page.html",
         str "file:///etc/hosts", str "resource://gre/modules"
       ].all Firefox.isInternalUrl) = true
    ∧ Google.isInternalUrl (str "resource://gre/modules") = false
    ∧ Firefox.isInternalUrl (str "edge://settings") = false :=
  ⟨Google.shouldBlockUrl_of_internal_google,
   Firefox.shouldBlockUrl_of_internal_firefox,
   by decide, by decide, by decide, by decide⟩

/-- C2 witness: the amended theorem applied to a concrete internal URL
and session. -/
theorem C2_internal_schemes_amended_witness :
    Google.shouldBlockUrl cachedAllowedDomains (str "chrome://settings")
      (some { mode := SessionMode.allowlist, urls := [],
              status := SessionStatus.active }) = false
    ∧ Firefox.shouldBlockUrl cachedAllowedDomains (str "resource://gre/modules")
      (some { mode := SessionMode.allowlist, urls := [],
              status := SessionStatus.active }) = false :=
  ⟨C2_internal_schemes_amended.1 cachedAllowedDomains (str "chrome://settings")
      (some { mode := SessionMode.allowlist, urls := [],
              status := SessionStatus.active }) (by decide),
   C2_internal_schemes_amended.2.1 cachedAllowedDomains (str "resource://gre/modules")
      (some { mode := SessionMode.allowlist, urls := [],
              status := SessionStatus.active }) (by decide)⟩

/-- C7: a null session, or any session whose status is not `active`,
never blocks, whatever the mode and url list. -/
theorem C7_inactive_never_blocks (domains : List JStr) (url : JStr) :
    Google.shouldBlockUrl domains url none = false
    ∧ (∀ s : FocusSession, s.status ≠ SessionStatus.active →
        Google.shouldBlockUrl domains url (some s) = false) := by
  refine ⟨rfl, fun s hs => ?_⟩
  simp only [Google.shouldBlockUrl, bne_iff_ne, ne_eq, hs, not_false_eq_true,
    if_true]

/-- C7 witness: concrete evaluations for a null session and a
`completed` session. -/
theorem C7_inactive_never_blocks_witness :
    Google.shouldBlockUrl cachedAllowedDomains (str "https://example.com") none = false
    ∧ Google.shouldBlockUrl cachedAllowedDomains (str "https://example.com")
        (some { mode := SessionMode.blocklist, urls := [ str "example.com" ],
                status := SessionStatus.completed }) = false :=
  ⟨(C7_inactive_never_blocks cachedAllowedDomains (str "https://example.com")).1,
   (C7_inactive_never_blocks cachedAllowedDomains (str "https://example.com")).2
      { mode := SessionMode.blocklist, urls := [ str "example.com" ],
        status := SessionStatus.completed } (by decide)⟩

/-- C8: an unparseable input is treated as internal by `isInternalUrl`,
so `shouldBlockUrl` is total on it and returns false for every session;
the string `not a url!!` is such an input. -/
theorem C8_unparseable_never_blocks :
    (∀ domains session url, newURL url = none →
      Google.isInternalUrl url = true
      ∧ Google.shouldBlockUrl domains url session = false)
    ∧ newURL (str "not a url!!") = none := by
  refine ⟨fun domains session url h => ?_, by decide⟩
  have hint : Google.isInternalUrl url = true := by
    simp only [Google.isInternalUrl, h]
  exact ⟨hint, Google.shouldBlockUrl_of_internal_google domains url session hint⟩

/-- C8 witness: the theorem applied to the concrete malformed string. -/
theorem C8_unparseable_never_blocks_witness :
    Google.isInternalUrl (str "not a url!!") = true
    ∧ Google.shouldBlockUrl cachedAllowedDomains (str "not a url!!")
        (some { mode := SessionMode.allowlist, urls := [],
                status := SessionStatus.active }) = false :=
  C8_unparseable_never_blocks.1 cachedAllowedDomains
    (some { mode := SessionMode.allowlist, urls := [],
            status := SessionStatus.active })
    (str "not a url!!") (by decide)

/-- C9: a target without `://` that the raw URL parser rejects is
treated as internal before the session list is consulted, so it is
never blocked — even though `parseUrlForMatching` would have parsed it
(after prepending `https://`) and even under an active allowlist
session with a non-empty list that does not contain it. -/
theorem C9_schemeless_bypasses_list :
    (∀ domains session url, includes url (str "://") = false → newURL url = none →
      Google.shouldBlockUrl domains url session = false)
    ∧ newURL (str "example.com/foo") = none
    ∧ parseUrlForMatching (str "example.com/foo") =
        some { hostname := str "example.com", pathname := str "/foo",
               fullUrl := str "https://example.com/foo" }
    ∧ Google.shouldBlockUrl cachedAllowedDomains (str "example.com/foo")
        (some { mode := SessionMode.allowlist, urls := [ str "other.com" ],
                status := SessionStatus.active }) = false := by
  refine ⟨fun domains session url _ h => ?_, by decide, by decide, by decide⟩
  have hint : Google.isInternalUrl url = true := by
    simp only [Google.isInternalUrl, h]
  exact Google.shouldBlockUrl_of_internal_google domains url session hint

/-- C9 witness: the theorem applied to the concrete schemeless string. -/
theorem C9_schemeless_bypasses_list_witness :
    Google.shouldBlockUrl cachedAllowedDomains (str "example.com/foo")
      (some { mode := SessionMode.allowlist, urls := [ str "other.com" ],
              status := SessionStatus.active }) = false :=
  C9_schemeless_bypasses_list.1 cachedAllowedDomains
    (some { mode := SessionMode.allowlist, urls := [ str "other.com" ],
            status := SessionStatus.active })
    (str "example.com/foo") (by decide) (by decide)

/-- Module state of `url-blocker.ts`: the cached always-allowed domain
list and the last fetch timestamp.  `shouldBlockUrl` reads the former
(via `getAllowedDomains()` inside `isFlowApp`) and writes neither. -/
structure BlockerState where
  cachedAllowedDomains : List JStr
  lastFetchTime : Nat
deriving DecidableEq, Repr

/-- Model of `getAllowedDomains()`: a pure read of the module cache. -/
def getAllowedDomainsCall (st : BlockerState) : List JStr × BlockerState :=
  (st.cachedAllowedDomains, st)

/-- One `shouldBlockUrl` call with the module state made explicit:
the call reads the cached domain list and performs no state write. -/
def shouldBlockUrlCall (st : BlockerState) (url : JStr)
    (session : Option FocusSession) : Bool × BlockerState :=
  let read := getAllowedDomainsCall st
  (Google.shouldBlockUrl read.1 url session, read.2)

/-- C10: `shouldBlockUrl` is deterministic — the call leaves the module
state untouched, and a second call on the resulting state with the same
inputs returns the same verdict. -/
theorem C10_deterministic (st : BlockerState) (url : JStr)
    (session : Option FocusSession) :
    (shouldBlockUrlCall st url session).2 = st
    ∧ (shouldBlockUrlCall ((shouldBlockUrlCall st url session).2) url session).1
        = (shouldBlockUrlCall st url session).1 :=
  ⟨rfl, rfl⟩

/-- C1: for an active session whose target URL is neither
internal-scheme nor always-allowed, `shouldBlockUrl` applies the mode
semantics exactly: with an empty url list it blocks everything in
allowlist mode and nothing in blocklist mode; with a non-empty list it
returns the negation of `urlMatchesAny` in allowlist mode and
`urlMatchesAny` itself in blocklist mode. -/
theorem C1_mode_semantics (domains : List JStr) (url : JStr) (s : FocusSession)
    (hact : s.status = SessionStatus.active)
    (hint : Google.isInternalUrl url = false)
    (hflow : isFlowApp domains url = false) :
    (s.urls = [] → s.mode = SessionMode.allowlist →
      Google.shouldBlockUrl domains url (some s) = true)
    ∧ (s.urls = [] → s.mode = SessionMode.blocklist →
      Google.shouldBlockUrl domains url (some s) = false)
    ∧ (s.urls ≠ [] → s.mode = SessionMode.allowlist →
      Google.shouldBlockUrl domains url (some s) = !(urlMatchesAny url s.urls))
    ∧ (s.urls ≠ [] → s.mode = SessionMode.blocklist →
      Google.shouldBlockUrl domains url (some s) = urlMatchesAny url s.urls) := by
  refine ⟨fun h1 h2 => ?_, fun h1 h2 => ?_, fun h1 h2 => ?_, fun h1 h2 => ?_⟩ <;>
    simp [Google.shouldBlockUrl, hact, hint, hflow, h1, h2, List.length_eq_zero]

/-- C1 witness: the theorem applied to a concrete active blocklist
session and a concrete external URL. -/
theorem C1_mode_semantics_witness :
    Google.shouldBlockUrl cachedAllowedDomains (str "https://example.com/x")
      (some { mode := SessionMode.blocklist, urls := [ str "example.com" ],
              status := SessionStatus.active }) =
      urlMatchesAny (str "https://example.com/x") [ str "example.com" ] :=
  (C1_mode_semantics cachedAllowedDomains (str "https://example.com/x")
      { mode := SessionMode.blocklist, urls := [ str "example.com" ],
        status := SessionStatus.active } rfl (by decide) (by decide)).2.2.2
    (by decide) rfl

/-- C4: the hostname comparison of `urlMatchesAny` on normalized
hostnames (lower-cased, one leading `www.` stripped) holds exactly when
they are equal or either one is a dot-separated subdomain of the other:
when the three-way disjunction is false the entry cannot match, when it
is true and the entry carries no specific path the entry matches; in
particular the target `https://example.com` matches the single entry
`sub.example.com` (entry-is-subdomain-of-target case). -/
theorem C4_hostname_match_semantics :
    (∀ t e tp ep, parseUrlForMatching t = some tp → parseUrlForMatching e = some ep →
      ((normalizeHostname tp.hostname == normalizeHostname ep.hostname
          || endsWith (normalizeHostname tp.hostname) ('.' :: normalizeHostname ep.hostname)
          || endsWith (normalizeHostname ep.hostname) ('.' :: normalizeHostname tp.hostname))
          = false →
        urlMatchesAny t [e] = false)
      ∧ ((normalizeHostname tp.hostname == normalizeHostname ep.hostname
          || endsWith (normalizeHostname tp.hostname) ('.' :: normalizeHostname ep.hostname)
          || endsWith (normalizeHostname ep.hostname) ('.' :: normalizeHostname tp.hostname))
          = true →
        hasSpecificPath e = false → urlMatchesAny t [e] = true))
    ∧ urlMatchesAny (str "https://example.com") [ str "sub.example.com" ] = true := by
  refine ⟨fun t e tp ep ht he => ⟨fun hno => ?_, fun hyes hspec => ?_⟩, by decide⟩
  · have hm : hostnameMatches (normalizeHostname tp.hostname)
        (normalizeHostname ep.hostname) = false := hno
    simp [urlMatchesAny, ht, he, hm]
  · have hm : hostnameMatches (normalizeHostname tp.hostname)
        (normalizeHostname ep.hostname) = true := hyes
    simp [urlMatchesAny, ht, he, hm, hspec]

/-- C4 witness: the theorem applied to concrete parse results — distinct
unrelated hostnames cannot match. -/
theorem C4_hostname_match_semantics_witness :
    urlMatchesAny (str "https://alpha.com") [ str "https://beta.org" ] = false :=
  (C4_hostname_match_semantics.1 (str "https://alpha.com") (str "https://beta.org")
      { hostname := str "alpha.com", pathname := str "/",
        fullUrl := str "https://alpha.com" }
      { hostname := str "beta.org", pathname := str "/",
        fullUrl := str "https://beta.org" }
      (by decide) (by decide)).1 (by decide)

/-- C5: a URL whose extracted hostname equals, or is a dot-separated
subdomain of, any entry of the cached always-allowed domain list is
never blocked under any session; with the hardcoded default cache this
covers every URL hosted under `vercel.app`. -/
theorem C5_always_allowed_never_blocked :
    (∀ domains url session h d, extractHostname url = some h → d ∈ domains →
      (h == d || endsWith h ('.' :: d)) = true →
      Google.shouldBlockUrl domains url session = false)
    ∧ (∀ url session h, extractHostname url = some h →
      (h == str "vercel.app" || endsWith h ('.' :: str "vercel.app")) = true →
      Google.shouldBlockUrl cachedAllowedDomains url session = false) := by
  have main : ∀ domains url session h d, extractHostname url = some h → d ∈ domains →
      (h == d || endsWith h ('.' :: d)) = true →
      Google.shouldBlockUrl domains url session = false := by
    intro domains url session h d hh hd hm
    have hflow : isFlowApp domains url = true := by
      simp only [isFlowApp, hh]
      rw [List.any_eq_true]
      exact ⟨d, hd, hm⟩
    exact Google.shouldBlockUrl_of_flowApp domains url session hflow
  exact ⟨main, fun url session h hh hm =>
    main cachedAllowedDomains url session h (str "vercel.app") hh (by decide) hm⟩

/-- C5 witness: a `vercel.app` subdomain explicitly placed on an active
blocklist is still not blocked. -/
theorem C5_always_allowed_never_blocked_witness :
    Google.shouldBlockUrl cachedAllowedDomains (str "https://evil.vercel.app/bad")
      (some { mode := SessionMode.blocklist, urls := [ str "evil.vercel.app" ],
              status := SessionStatus.active }) = false :=
  C5_always_allowed_never_blocked.2 (str "https://evil.vercel.app/bad")
    (some { mode := SessionMode.blocklist, urls := [ str "evil.vercel.app" ],
            status := SessionStatus.active })
    (str "evil.vercel.app") (by decide) (by decide)

/-- C6: a parseable list entry without a specific path (its parsed path
is empty after stripping one trailing slash and its original string has
no question mark) matches on hostname alone, covering every path and
query under that host; in particular blocklist mode with the single
entry `example.com` blocks both `https://example.com/` and
`https://example.com/deep/path?x=1`. -/
theorem C6_hostname_only_entry :
    (∀ t L e tp ep, e ∈ L →
      parseUrlForMatching t = some tp → parseUrlForMatching e = some ep →
      stripTrailingSlash ep.pathname = [] → includes e (str "?") = false →
      hostnameMatches (normalizeHostname tp.hostname) (normalizeHostname ep.hostname) = true →
      urlMatchesAny t L = true)
    ∧ Google.shouldBlockUrl cachedAllowedDomains (str "https://example.com/")
        (some { mode := SessionMode.blocklist, urls := [ str "example.com" ],
                status := SessionStatus.active }) = true
    ∧ Google.shouldBlockUrl cachedAllowedDomains (str "https://example.com/deep/path?x=1")
        (some { mode := SessionMode.blocklist, urls := [ str "example.com" ],
                status := SessionStatus.active }) = true := by
  refine ⟨fun t L e tp ep heL ht he hpath hq hhost => ?_, by decide, by decide⟩
  have hfq : includes ep.fullUrl (str "?") = false := includes_qmark_fullUrl e ep he hq
  have hspec : hasSpecificPath e = false := by
    simp only [hasSpecificPath, he]
    rw [hpath]
    simp [hfq]
  simp only [urlMatchesAny, ht]
  rw [List.any_eq_true]
  refine ⟨e, heL, ?_⟩
  simp [he, hhost, hspec]

/-- C6 witness: the theorem applied to the entry `example.com` and a
deep target path. -/
theorem C6_hostname_only_entry_witness :
    urlMatchesAny (str "https://example.com/anything/else") [ str "example.com" ] = true :=
  C6_hostname_only_entry.1 (str "https://example.com/anything/else")
    [ str "example.com" ] (str "example.com")
    { hostname := str "example.com", pathname := str "/anything/else",
      fullUrl := str "https://example.com/anything/else" }
    { hostname := str "example.com", pathname := str "/",
      fullUrl := str "https://example.com" }
    (by decide) (by decide) (by decide) (by decide) (by decide) (by decide)

/-- Path matching as claim C3 (and spec section 4.2g) states it: the
parsed path-plus-query of each side with one trailing slash stripped,
compared by equality or prefix.  Kept separate from the implemented
`matchPath` so the two constructions can be compared. -/
def specPathMatches (targetParsed listParsed : ParsedForMatching) : Bool :=
  let targetPath := stripTrailingSlash targetParsed.pathname
  let listPath := stripTrailingSlash listParsed.pathname
  targetPath == listPath || List.isPrefixOf listPath targetPath

/-- C3: at the failing input the hostnames match, the entry carries a
specific path, and the claim's path rule — also promised by the code's
own inline comment (`list="/watch?v=abc"` matches
`target="/watch?v=abc&t=10"`) — says the entry matches; the code
nevertheless reports no match and does not block, because it appends
the query text a second time (the parsed pathname already contains the
search, then `fullUrl.split("?")[1]` is concatenated again), producing
`/watch?v=abc&t=10v=abc&t=10` vs `/watch?v=abcv=abc`, which is not a
prefix pair.  The claim's own query-free examples do hold. -/
theorem C3_query_prefix_code_bug :
    ((parseUrlForMatching (str "https://example.com/watch?v=abc&t=10")).bind fun tp =>
      (parseUrlForMatching (str "example.com/watch?v=abc")).map fun ep =>
        (hostnameMatches (normalizeHostname tp.hostname) (normalizeHostname ep.hostname),
         specPathMatches tp ep, matchPath tp, matchPath ep)) =
      some (true, true, str "/watch?v=abc&t=10v=abc&t=10", str "/watch?v=abcv=abc")
    ∧ hasSpecificPath (str "example.com/watch?v=abc") = true
    ∧ urlMatchesAny (str "https://example.com/watch?v=abc&t=10")
        [ str "example.com/watch?v=abc" ] = false
    ∧ Google.shouldBlockUrl cachedAllowedDomains
        (str "https://example.com/watch?v=abc&t=10")
        (some { mode := SessionMode.blocklist,
                urls := [ str "example.com/watch?v=abc" ],
                status := SessionStatus.active }) = false
    ∧ urlMatchesAny (str "https://example.com/videos/123")
        [ str "example.com/videos" ] = true
    ∧ urlMatchesAny (str "https://example.com/other")
        [ str "example.com/videos" ] = false := by
  decide
